import Mathlib

/-!
Shallow embedding of src/src/RocksKeyValue.cc (GLnexus RocksDB key-value
layer) and proofs about the claims of its specification.

Engine calls (rocksdb) are the external collaborator: they enter the
embedding as explicit parameters (the status an engine call returns, the
entries an engine cursor ranges over), with the engine contract stated
where the spec fixes it (ordered iteration, atomic batch write).
-/

namespace GLnexus

/-- Modelled from the spec: the closed error taxonomy of section 7
(`Status.h` is not part of src/): OK, NotFound, Exists, Invalid, IOError,
NotImplemented, Failure. -/
inductive StatusKind
  | OK
  | NotFound
  | Exists
  | Invalid
  | IOError
  | NotImplemented
  | Failure
deriving DecidableEq, Repr

/-- Modelled from the spec: a GLnexus Status value is an error kind together
with a human-readable message and an optional engine diagnostic string
(empty when absent). -/
structure Status where
  kind : StatusKind
  msg : String
  detail : String
deriving DecidableEq, Repr

/-- the Status::OK() marker -/
def statusOK : Status := ⟨StatusKind.OK, "", ""⟩

/-- an engine (rocksdb) status: its numeric result code and its ToString()
rendering. The enumerated codes are kOk = 0, kNotFound = 1, kCorruption = 2,
kNotSupported = 3, kInvalidArgument = 4, kIOError = 5, kMergeInProgress = 6,
kIncomplete = 7, kShutdownInProgress = 8, kTimedOut = 9, kAborted = 10;
every other code value is unenumerated. -/
structure RocksStatus where
  code : Nat
  str : String
deriving DecidableEq, Repr

/-- rocksdb::Status::ok() -/
def RocksStatus.ok (s : RocksStatus) : Bool := s.code == 0

/-- the rocksdb OK status -/
def rocksOK : RocksStatus := ⟨0, ""⟩

/-- convertStatus (RocksKeyValue.cc lines 37-69): translate a rocksdb status
into a GLnexus Status. -/
def convertStatus (s : RocksStatus) : Status :=
  match s.code with
  | 0 => statusOK
  | 1 => ⟨StatusKind.NotFound, "", ""⟩
  | 2 => ⟨StatusKind.Failure, "corruption", ""⟩
  | 3 => ⟨StatusKind.NotImplemented, "", ""⟩
  | 4 => ⟨StatusKind.Invalid, "RocksDB kInvalidArgument", s.str⟩
  | 5 => ⟨StatusKind.IOError, "RocksDB kIOError", s.str⟩
  | 6 => ⟨StatusKind.Failure, "merge in progress", ""⟩
  | 7 => ⟨StatusKind.Failure, "incomplete", ""⟩
  | 8 => ⟨StatusKind.Failure, "shutdown in progress", ""⟩
  | 9 => ⟨StatusKind.Failure, "timed out", ""⟩
  | 10 => ⟨StatusKind.Failure, "aborted", ""⟩
  | _ + 11 => ⟨StatusKind.Failure, "other reason", s.str⟩

/-- left shift of a C `int` literal: the arithmetic is 32-bit int
arithmetic, so the value wraps modulo 2^32 (mainstream compilers fold the
constant `4 << 30` this way). -/
def cIntShl (a b : Nat) : Nat := (a * 2 ^ b) % 2 ^ 32

/-- totalRAM (RocksKeyValue.cc lines 24-34) as one call step: the
function-local static `memoized` is passed in and returned explicitly, and
`query` stands for the value of
`(size_t)sysconf(_SC_PHYS_PAGES) * (size_t)sysconf(_SC_PAGESIZE)`.
The result is the pair (returned value, new value of `memoized`). -/
def totalRAM (memoized query : Nat) : Nat × Nat :=
  if memoized = 0 then
    let m1 := query
    let m2 := if m1 = 0 then cIntShl 4 30 else m1
    (m2, m2)
  else (memoized, memoized)

/-- the three operating modes of RocksKeyValue.h -/
inductive OpenMode
  | NORMAL
  | BULK_LOAD
  | READ_ONLY
deriving DecidableEq, Repr

/-- one engine call issued by the DB destructor -/
inductive ShutdownEvent
  | compactRange (coll : String)
  | syncWAL
  | flush (coll : String)
  | freeHandle (coll : String)
  | deleteEngine
deriving DecidableEq, Repr

/-- DB::~DB (RocksKeyValue.cc lines 374-395) as the sequence of engine calls
it issues; `colls` is the (sorted) key list of the std::map coll2handle_,
which every range-for loop traverses in the same order. -/
def dbDestructor (mode : OpenMode) (colls : List String) : List ShutdownEvent :=
  (if mode = OpenMode.BULK_LOAD then colls.map ShutdownEvent.compactRange else []) ++
  (if mode ≠ OpenMode.READ_ONLY then
    ShutdownEvent.syncWAL :: colls.map ShutdownEvent.flush
  else []) ++
  (colls.map ShutdownEvent.freeHandle ++ [ShutdownEvent.deleteEngine])

/-- rocksdb::WriteOptions, restricted to the two fields the layer sets; the
default constructor leaves both false. -/
structure WriteOptions where
  sync : Bool
  disableWAL : Bool
deriving DecidableEq, Repr

/-- default-constructed rocksdb::WriteOptions -/
def defaultWriteOptions : WriteOptions := ⟨false, false⟩

/-- DB::DB (RocksKeyValue.cc lines 280-291): the write options prepared from
the mode at construction; the pair is (write_options_, batch_write_options_),
both starting from the default-constructed values. -/
def prepareWriteOptions (mode : OpenMode) : WriteOptions × WriteOptions :=
  if mode = OpenMode.BULK_LOAD then
    ({ defaultWriteOptions with disableWAL := true },
     { defaultWriteOptions with disableWAL := true })
  else
    (defaultWriteOptions, { defaultWriteOptions with sync := true })

/-- the engine key-value state: an association list from (collection, key)
to value, most recent write first. -/
abbrev KVState := List ((String × String) × String)

/-- one engine-level put -/
def kvPut (st : KVState) (coll key value : String) : KVState :=
  ((coll, key), value) :: st

/-- an engine-level point read of the current state -/
def kvGet (st : KVState) (coll key : String) : Option String :=
  (st.find? (fun e => e.1 == (coll, key))).map (fun e => e.2)

/-- apply a list of staged (collection, key, value) puts in order -/
def applyPuts (st : KVState) (puts : List (String × String × String)) : KVState :=
  puts.foldl (fun s p => kvPut s p.1 p.2.1 p.2.2) st

/-- the wrapper WriteBatch (RocksKeyValue.cc lines 232-267): the staged
puts of the underlying rocksdb::WriteBatch plus the batch write options the
batch was created with (a const reference to the DB member, which never
changes after DB construction). -/
structure WriteBatch where
  puts : List (String × String × String)
  batch_write_options : WriteOptions
deriving DecidableEq, Repr

/-- DB::begin_writes (lines 432-435): a fresh empty batch bound to the batch
write options fixed at DB construction. -/
def begin_writes (mode : OpenMode) : WriteBatch :=
  ⟨[], (prepareWriteOptions mode).2⟩

/-- WriteBatch::put (lines 255-261): stage one mutation; always returns OK
and touches no engine state. -/
def WriteBatch.stagePut (wb : WriteBatch) (coll key value : String) :
    Status × WriteBatch :=
  (statusOK, ⟨wb.puts ++ [(coll, key, value)], wb.batch_write_options⟩)

/-- the engine invocation commit makes: db_->Write(batch_write_options_, wb_),
recorded as the options handed to the engine together with the staged puts. -/
def WriteBatch.commitCall (wb : WriteBatch) : WriteOptions × List (String × String × String) :=
  (wb.batch_write_options, wb.puts)

/-- rocksdb::DB::Write at the interface boundary: the engine applies a whole
WriteBatch atomically, so it either returns kOk and applies every staged put,
or returns an error status and applies none. `outcome` is the status the
engine returns for this call. -/
def engineWrite (outcome : RocksStatus) (st : KVState)
    (puts : List (String × String × String)) : KVState :=
  if outcome.ok then applyPuts st puts else st

/-- WriteBatch::commit (lines 263-266): one engine Write of the whole staged
batch under the stored options, then return the mapped engine status; the
staged puts are not cleared afterwards. Returns (mapped status, engine
state after the call, the batch object as it stands after the call). -/
def WriteBatch.commit (wb : WriteBatch) (outcome : RocksStatus) (st : KVState) :
    Status × KVState × WriteBatch :=
  (convertStatus outcome, engineWrite outcome st wb.commitCall.2, wb)

/-- DB::Initialize (lines 294-315): open with create_if_missing and
error_if_exists under NORMAL tuning; a failed engine open returns the mapped
engine status, a failed handle allocation afterwards returns the generic
Failure, otherwise OK. `engineOpen` is the status rocksdb::DB::Open returns
and `allocOk` whether the DB object allocation succeeds. -/
def dbInitialize (engineOpen : RocksStatus) (allocOk : Bool) : Status :=
  if !engineOpen.ok then convertStatus engineOpen
  else if !allocOk then ⟨StatusKind.Failure, "", ""⟩
  else statusOK

/-- DB::Open (lines 317-372): list the column families (engine status
`listCF`); on failure return it mapped; then open the database in the mode
(engine status `openS`); on failure return it mapped; a failed allocation
returns the generic Failure; otherwise OK. -/
def dbOpen (listCF openS : RocksStatus) (allocOk : Bool) : Status :=
  if !listCF.ok then convertStatus listCF
  else if !openS.ok then convertStatus openS
  else if !allocOk then ⟨StatusKind.Failure, "", ""⟩
  else statusOK

/-- rocksdb::ColumnFamilyOptions restricted to the fields
ApplyColumnFamilyOptions touches. `memtableBudget` abstracts the
OptimizeLevelStyleCompaction budget argument. -/
structure CFOptions where
  memtableBudget : Nat
  numLevels : Nat
  compression : String
  blockSize : Nat
  blockCacheSize : Nat
  vectorMemtable : Bool
  writeBufferSize : Nat
  maxWriteBufferNumber : Nat
  minWriteBufferNumberToMerge : Nat
  level0FileNumCompactionTrigger : Nat
  level0SlowdownWritesTrigger : Nat
  level0StopWritesTrigger : Nat
  sourceCompactionFactor : Nat
deriving DecidableEq, Repr

/-- default-constructed rocksdb::ColumnFamilyOptions of the era, as the
pre-tuning state (the exact defaults are engine-internal; only the fields
the tuning function overwrites matter to the claims). -/
def baseCFOptions : CFOptions :=
  ⟨0, 7, "snappy", 4096, 8388608, false, 4194304, 2, 1, 4, 20, 24, 1⟩

/-- ApplyColumnFamilyOptions (RocksKeyValue.cc lines 79-120) over the
abstract option record; `ram` is the totalRAM() result feeding the block
cache sizing. -/
def ApplyColumnFamilyOptions (mode : OpenMode) (ram : Nat) (opts : CFOptions) :
    CFOptions :=
  let o1 := { opts with
    memtableBudget := 2 ^ 30,
    numLevels := 5,
    compression := "lz4",
    blockSize := 64 * 1024,
    blockCacheSize := ram / 4 }
  if mode = OpenMode.BULK_LOAD then
    { o1 with
      vectorMemtable := true,
      writeBufferSize := ram / 8,
      maxWriteBufferNumber := 6,
      minWriteBufferNumberToMerge := 1,
      level0FileNumCompactionTrigger := 2 ^ 30,
      level0SlowdownWritesTrigger := 2 ^ 30,
      level0StopWritesTrigger := 2 ^ 30,
      sourceCompactionFactor := 2 ^ 30 }
  else o1

/-- the DB state create_collection works on: the operating mode, the cached
totalRAM value, and coll2handle_ as a list of (name, the options the column
family was created with). -/
structure DBState where
  mode : OpenMode
  ram : Nat
  coll2handle : List (String × CFOptions)
deriving DecidableEq, Repr

/-- DB::create_collection (RocksKeyValue.cc lines 407-425). `createCF` is
the engine status of rocksdb::DB::CreateColumnFamily (consulted only when
the engine call is actually made). -/
def create_collection (db : DBState) (createCF : RocksStatus) (name : String) :
    Status × DBState :=
  if (db.coll2handle.find? (fun p => p.1 == name)).isSome then
    (⟨StatusKind.Exists, "column family already exists", name⟩, db)
  else if !createCF.ok then
    (convertStatus createCF, db)
  else
    (statusOK,
     ⟨db.mode, db.ram,
      db.coll2handle ++ [(name, ApplyColumnFamilyOptions db.mode db.ram baseCFOptions)]⟩)

/-- number of collections of a given name in the mapping -/
def collCount (db : DBState) (name : String) : Nat :=
  (db.coll2handle.filter (fun p => p.1 == name)).length

/-- an engine cursor (rocksdb::Iterator) over one collection: the entries of
the collection in the order the engine yields them (ascending key order),
the current position, and a recorded engine error if any. -/
structure RocksIter where
  entries : List (String × String)
  pos : Nat
  err : Option RocksStatus
deriving DecidableEq, Repr

/-- rocksdb::Iterator::status() -/
def RocksIter.status (it : RocksIter) : RocksStatus := it.err.getD rocksOK

/-- rocksdb::Iterator::Valid(): positioned on a real entry and no error -/
def RocksIter.Valid (it : RocksIter) : Bool :=
  it.err.isNone && decide (it.pos < it.entries.length)

/-- rocksdb::Iterator::Next() -/
def RocksIter.Next (it : RocksIter) : RocksIter := ⟨it.entries, it.pos + 1, it.err⟩

/-- rocksdb::Iterator::SeekToFirst() -/
def RocksIter.SeekToFirst (it : RocksIter) : RocksIter := ⟨it.entries, 0, it.err⟩

/-- rocksdb::Iterator::Seek(key): position on the first entry whose key is
at or past the target -/
def RocksIter.Seek (it : RocksIter) (key : String) : RocksIter :=
  ⟨it.entries, it.entries.findIdx (fun e => decide (key ≤ e.1)), it.err⟩

/-- the key at the current position (meaningful only when Valid) -/
def RocksIter.currKey (it : RocksIter) : String := (it.entries.getD it.pos ("", "")).1

/-- the value at the current position (meaningful only when Valid) -/
def RocksIter.currValue (it : RocksIter) : String := (it.entries.getD it.pos ("", "")).2

/-- the wrapper Iterator (RocksKeyValue.cc lines 140-179): the engine cursor
plus the copied key_ and value_ strings. -/
structure Iterator where
  iter : RocksIter
  key : String
  value : String
deriving DecidableEq, Repr

/-- the Iterator constructor (lines 151-156): capture copies of the current
key and value when the cursor is initially valid; the members otherwise stay
default-constructed empty strings. -/
def mkIterator (it : RocksIter) : Iterator :=
  if it.Valid then ⟨it, it.currKey, it.currValue⟩ else ⟨it, "", ""⟩

/-- Iterator::valid (lines 158-160) -/
def Iterator.valid (i : Iterator) : Bool := i.iter.Valid

/-- Iterator::next (lines 165-178): surface a pre-recorded cursor error
without advancing; otherwise advance, surface a new error if one appeared,
and capture fresh key and value copies when the advance lands on a valid
entry. -/
def Iterator.next (i : Iterator) : Status × Iterator :=
  if !i.iter.status.ok then (convertStatus i.iter.status, i)
  else
    let it2 := i.iter.Next
    if !it2.status.ok then (convertStatus it2.status, ⟨it2, i.key, i.value⟩)
    else if it2.Valid then (statusOK, ⟨it2, it2.currKey, it2.currValue⟩)
    else (statusOK, ⟨it2, i.key, i.value⟩)

/-- one step of the wrapper iterator, keeping only the iterator -/
def nextIter (i : Iterator) : Iterator := i.next.2

/-- Reader::iterator (RocksKeyValue.cc lines 210-229). `newIter` is what
db_->NewIterator returns: none models a failed engine iterator construction,
otherwise a fresh cursor over the collection entries carrying any engine
error. Seek to the start key if non-empty, else to the first entry; a
non-ok cursor status after the seek is returned mapped, without producing
an Iterator. -/
def readerIterator (newIter : Option RocksIter) (key : String) :
    Except Status Iterator :=
  match newIter with
  | none => Except.error ⟨StatusKind.Failure, "rocksdb::DB::NewIterator()", ""⟩
  | some rit =>
    let rit2 := if key.isEmpty then rit.SeekToFirst else rit.Seek key
    if !rit2.status.ok then Except.error (convertStatus rit2.status)
    else Except.ok (mkIterator rit2)

/-- keys visited by repeatedly reading the current key and advancing, with
explicit fuel; advancing stops at an invalid cursor or a non-OK status. -/
def visitedKeys : Nat → Iterator → List String
  | 0, _ => []
  | n + 1, i =>
    if i.valid then
      i.key :: (if i.next.1 = statusOK then visitedKeys n i.next.2 else [])
    else []

/-- keys of a cursor, in cursor order -/
def keysOf (it : RocksIter) : List String := it.entries.map Prod.fst

/-- DB::put (RocksKeyValue.cc lines 448-454): the engine invocation is
db_->Put(write_options_, coll, key, value); recorded as the options handed
to the engine together with the arguments. -/
def dbPutCall (mode : OpenMode) (coll key value : String) :
    WriteOptions × String × String × String :=
  ((prepareWriteOptions mode).1, coll, key, value)

/-- stage a list of puts one after the other on a batch -/
def stageAll (wb : WriteBatch) (ops : List (String × String × String)) : WriteBatch :=
  ops.foldl (fun b p => (b.stagePut p.1 p.2.1 p.2.2).2) wb

section Theorems

/-- helper: the kind convertStatus returns is OK exactly for the engine
success code -/
theorem convertStatus_kind_ok_iff (s : RocksStatus) :
    (convertStatus s).kind = StatusKind.OK ↔ s.code = 0 := by
  obtain ⟨c, str⟩ := s
  rcases c with _|_|_|_|_|_|_|_|_|_|_|c <;> simp [convertStatus, statusOK]

/-- helper: the kind convertStatus returns is NotFound exactly for the
engine code kNotFound = 1 -/
theorem convertStatus_kind_notFound_iff (s : RocksStatus) :
    (convertStatus s).kind = StatusKind.NotFound ↔ s.code = 1 := by
  obtain ⟨c, str⟩ := s
  rcases c with _|_|_|_|_|_|_|_|_|_|_|c <;> simp [convertStatus, statusOK]

/-- helper: convertStatus never produces the Exists kind -/
theorem convertStatus_kind_ne_exists (s : RocksStatus) :
    (convertStatus s).kind ≠ StatusKind.Exists := by
  obtain ⟨c, str⟩ := s
  rcases c with _|_|_|_|_|_|_|_|_|_|_|c <;> simp [convertStatus, statusOK]

/-- C4: the status mapping is total over the engine result-code space:
every engine code yields exactly one value of the closed taxonomy, the
success code yields OK, each enumerated error code yields its specific
kind (Invalid and IOError carrying the engine diagnostic string), and every
unenumerated code yields the generic Failure rather than being dropped. -/
theorem convertStatus_total (s : RocksStatus) :
    ((convertStatus s).kind = StatusKind.OK ↔ s.code = 0) ∧
    convertStatus ⟨0, s.str⟩ = statusOK ∧
    convertStatus ⟨1, s.str⟩ = ⟨StatusKind.NotFound, "", ""⟩ ∧
    convertStatus ⟨2, s.str⟩ = ⟨StatusKind.Failure, "corruption", ""⟩ ∧
    convertStatus ⟨3, s.str⟩ = ⟨StatusKind.NotImplemented, "", ""⟩ ∧
    convertStatus ⟨4, s.str⟩ = ⟨StatusKind.Invalid, "RocksDB kInvalidArgument", s.str⟩ ∧
    convertStatus ⟨5, s.str⟩ = ⟨StatusKind.IOError, "RocksDB kIOError", s.str⟩ ∧
    convertStatus ⟨6, s.str⟩ = ⟨StatusKind.Failure, "merge in progress", ""⟩ ∧
    convertStatus ⟨7, s.str⟩ = ⟨StatusKind.Failure, "incomplete", ""⟩ ∧
    convertStatus ⟨8, s.str⟩ = ⟨StatusKind.Failure, "shutdown in progress", ""⟩ ∧
    convertStatus ⟨9, s.str⟩ = ⟨StatusKind.Failure, "timed out", ""⟩ ∧
    convertStatus ⟨10, s.str⟩ = ⟨StatusKind.Failure, "aborted", ""⟩ ∧
    (11 ≤ s.code → convertStatus s = ⟨StatusKind.Failure, "other reason", s.str⟩) := by
  refine ⟨convertStatus_kind_ok_iff s, rfl, rfl, rfl, rfl, rfl, rfl, rfl, rfl, rfl,
    rfl, rfl, ?_⟩
  obtain ⟨c, str⟩ := s
  intro h
  rcases c with _|_|_|_|_|_|_|_|_|_|_|c
  all_goals first
    | rfl
    | exact absurd h (by simp)

/-- C4 witness: the mapping evaluated where the hypothesis-bearing conjunct
applies, at the unenumerated code 99. -/
theorem convertStatus_total_witness :
    convertStatus ⟨99, "diag"⟩ = ⟨StatusKind.Failure, "other reason", "diag"⟩ :=
  (convertStatus_total ⟨99, "diag"⟩).2.2.2.2.2.2.2.2.2.2.2.2 (by simp)

/-- C6: the totalRAM fallback is broken: the constant 4 << 30 is computed
in 32-bit int arithmetic and wraps to 0, so when the physical-memory query
returns 0 the function stores and returns 0 instead of 4 GiB, and the next
call queries again (here getting 2^33) instead of returning the first
call's value. -/
theorem totalRAM_overflow_bug :
    cIntShl 4 30 = 0 ∧
    totalRAM 0 0 = (0, 0) ∧
    totalRAM (totalRAM 0 0).2 (2 ^ 33) = (2 ^ 33, 2 ^ 33) := by
  refine ⟨by norm_num [cIntShl], by norm_num [totalRAM, cIntShl], ?_⟩
  norm_num [totalRAM, cIntShl]

/-- C1: the shutdown sequence of the DB destructor: under BULK_LOAD a full
compaction of every collection first, then (in every non-READ_ONLY mode)
the WAL sync followed by a flush of every collection, then the release of
every collection handle, and the engine handle released last; READ_ONLY
skips both the compaction and the sync/flush steps. -/
theorem dbDestructor_shutdown_order (colls : List String) :
    dbDestructor OpenMode.BULK_LOAD colls =
      colls.map ShutdownEvent.compactRange ++
      (ShutdownEvent.syncWAL :: colls.map ShutdownEvent.flush) ++
      (colls.map ShutdownEvent.freeHandle ++ [ShutdownEvent.deleteEngine]) ∧
    dbDestructor OpenMode.NORMAL colls =
      (ShutdownEvent.syncWAL :: colls.map ShutdownEvent.flush) ++
      (colls.map ShutdownEvent.freeHandle ++ [ShutdownEvent.deleteEngine]) ∧
    dbDestructor OpenMode.READ_ONLY colls =
      colls.map ShutdownEvent.freeHandle ++ [ShutdownEvent.deleteEngine] ∧
    (∀ m, (dbDestructor m colls).getLast? = some ShutdownEvent.deleteEngine) ∧
    (∀ c, ShutdownEvent.compactRange c ∉ dbDestructor OpenMode.READ_ONLY colls) ∧
    ShutdownEvent.syncWAL ∉ dbDestructor OpenMode.READ_ONLY colls ∧
    (∀ c, ShutdownEvent.flush c ∉ dbDestructor OpenMode.READ_ONLY colls) ∧
    (∀ c, ShutdownEvent.compactRange c ∉ dbDestructor OpenMode.NORMAL colls) := by
  refine ⟨by simp [dbDestructor], by simp [dbDestructor], by simp [dbDestructor],
    ?_, ?_, ?_, ?_, ?_⟩
  · intro m; cases m <;> simp [dbDestructor, List.getLast?_cons, List.getLast?_append]
  · intro c; simp [dbDestructor]
  · simp [dbDestructor]
  · intro c; simp [dbDestructor]
  · intro c; simp [dbDestructor]

/-- C1 witness: the shutdown sequence evaluated on a two-collection
database in each mode. -/
theorem dbDestructor_shutdown_order_witness :
    dbDestructor OpenMode.READ_ONLY ["p", "q"] =
      [ShutdownEvent.freeHandle "p", ShutdownEvent.freeHandle "q",
        ShutdownEvent.deleteEngine] ∧
    (dbDestructor OpenMode.BULK_LOAD ["p", "q"]).getLast? =
      some ShutdownEvent.deleteEngine ∧
    ShutdownEvent.syncWAL ∉ dbDestructor OpenMode.READ_ONLY ["p", "q"] := by
  refine ⟨?_, (dbDestructor_shutdown_order ["p", "q"]).2.2.2.1 OpenMode.BULK_LOAD,
    (dbDestructor_shutdown_order ["p", "q"]).2.2.2.2.2.1⟩
  have h := (dbDestructor_shutdown_order ["p", "q"]).2.2.1
  simpa using h

/-- C5: the write-durability configuration fixed at DB construction: NORMAL
batch commits are synchronous with the WAL enabled while single-key put
runs non-synchronous with the WAL enabled; BULK_LOAD disables the WAL on
both paths; and a batch built by begin_writes hands the engine the batch
options fixed at its creation no matter what was staged afterwards. -/
theorem write_durability_by_mode :
    (prepareWriteOptions OpenMode.NORMAL).2 = ⟨true, false⟩ ∧
    (dbPutCall OpenMode.NORMAL "c" "k" "v").1 = ⟨false, false⟩ ∧
    (prepareWriteOptions OpenMode.BULK_LOAD).1 = ⟨false, true⟩ ∧
    (prepareWriteOptions OpenMode.BULK_LOAD).2 = ⟨false, true⟩ ∧
    (∀ mode coll key value,
      (dbPutCall mode coll key value).1 = (prepareWriteOptions mode).1) ∧
    (∀ mode ops,
      (stageAll (begin_writes mode) ops).commitCall.1 = (prepareWriteOptions mode).2) ∧
    (∀ (wb : WriteBatch) (outcome : RocksStatus) (st : KVState),
      (wb.commit outcome st).2.2.batch_write_options = wb.batch_write_options) := by
  refine ⟨rfl, rfl, rfl, rfl, fun mode coll key value => rfl, ?_, ?_⟩
  · intro mode ops
    suffices h : ∀ (ops : List (String × String × String)) (wb : WriteBatch),
        (stageAll wb ops).commitCall.1 = wb.batch_write_options by
      exact h ops (begin_writes mode)
    intro ops
    induction ops with
    | nil => intro wb; rfl
    | cons p t ih => intro wb; exact ih _
  · intro wb outcome st; rfl

/-- C2 (amended): commit hands the whole staged batch to the engine in one
atomic write: on engine success every staged mutation is applied, on engine
failure the mapped error is returned and the engine state is unchanged; the
staged puts remain in the batch object after the call either way. -/
theorem commit_atomic_contract (wb : WriteBatch) (outcome : RocksStatus) (st : KVState) :
    (outcome.ok = true → wb.commit outcome st = (statusOK, applyPuts st wb.puts, wb)) ∧
    (outcome.ok = false →
      (wb.commit outcome st).1 = convertStatus outcome ∧
      (wb.commit outcome st).1.kind ≠ StatusKind.OK ∧
      (wb.commit outcome st).2.1 = st) ∧
    (wb.commit outcome st).2.2 = wb := by
  refine ⟨?_, ?_, rfl⟩
  · intro h
    have hc : outcome.code = 0 := by simpa [RocksStatus.ok] using h
    have hconv : convertStatus outcome = statusOK := by
      obtain ⟨c, str⟩ := outcome
      simp only [RocksStatus.code] at hc
      subst hc
      rfl
    simp [WriteBatch.commit, engineWrite, WriteBatch.commitCall, h, hconv]
  · intro h
    refine ⟨rfl, ?_, ?_⟩
    · intro hk
      have hc : outcome.code = 0 := (convertStatus_kind_ok_iff outcome).1 hk
      simp [RocksStatus.ok, hc] at h
    · simp [WriteBatch.commit, engineWrite, WriteBatch.commitCall, h]

/-- C2 witness: the contract evaluated on a one-put batch, once with engine
success and once with engine failure. -/
theorem commit_atomic_contract_witness :
    WriteBatch.commit ⟨[("c", "x", "1")], ⟨true, false⟩⟩ ⟨0, ""⟩ [] =
      (statusOK, applyPuts [] [("c", "x", "1")], ⟨[("c", "x", "1")], ⟨true, false⟩⟩) ∧
    (WriteBatch.commit ⟨[("c", "x", "1")], ⟨true, false⟩⟩ ⟨5, "io"⟩ []).2.1 = [] :=
  ⟨(commit_atomic_contract ⟨[("c", "x", "1")], ⟨true, false⟩⟩ ⟨0, ""⟩ []).1 rfl,
   ((commit_atomic_contract ⟨[("c", "x", "1")], ⟨true, false⟩⟩ ⟨5, "io"⟩ []).2.1 rfl).2.2⟩

/-- C2 counterexample: a failed commit does not discard the staged state:
the batch object still holds its staged put afterwards, and a second commit
of the same batch re-applies it (here succeeding, making the mutation
visible), contradicting the claim that a second commit cannot re-apply. -/
theorem commit_retry_reapplies :
    (((begin_writes OpenMode.NORMAL).stagePut "c" "x" "1").2.commit ⟨5, "io"⟩ []).1.kind
        = StatusKind.IOError ∧
    (((begin_writes OpenMode.NORMAL).stagePut "c" "x" "1").2.commit ⟨5, "io"⟩ []).2.1 = [] ∧
    (((begin_writes OpenMode.NORMAL).stagePut "c" "x" "1").2.commit ⟨5, "io"⟩ []).2.2.puts
        = [("c", "x", "1")] ∧
    kvGet ((((begin_writes OpenMode.NORMAL).stagePut "c" "x" "1").2.commit
        ⟨5, "io"⟩ []).2.2.commit ⟨0, ""⟩ []).2.1 "c" "x" = some "1" := by
  exact ⟨rfl, rfl, rfl, rfl⟩

/-- C3 counterexample: Initialize on a path already holding a database is
rejected by the engine open (the error_if_exists rejection carries the
engine code kInvalidArgument = 4), and the layer surfaces kind Invalid, not
Exists. -/
theorem initialize_exists_counterexample :
    (dbInitialize ⟨4, "Invalid argument: exists (error_if_exists is true)"⟩ true).kind
        = StatusKind.Invalid ∧
    (dbInitialize ⟨4, "Invalid argument: exists (error_if_exists is true)"⟩ true).kind
        ≠ StatusKind.Exists := by
  exact ⟨rfl, by decide⟩

/-- C3 (amended): both lifecycle entry points surface engine failures as the
mapped engine status; the status mapping has no Exists case, so Initialize
on an existing path can never fail with kind Exists (the engine rejection
surfaces as its mapped kind, Invalid for the error_if_exists rejection);
Open returns the mapped engine status of whichever engine step failed
(the column-family enumeration, or else the open), and its kind is
NotFound precisely when that failing step reported the engine's not-found
code. -/
theorem initialize_open_error_mapping :
    (∀ (s : RocksStatus) (b : Bool), (dbInitialize s b).kind ≠ StatusKind.Exists) ∧
    (∀ (s : RocksStatus) (b : Bool), s.ok = false → dbInitialize s b = convertStatus s) ∧
    (∀ (listCF openS : RocksStatus) (b : Bool), listCF.ok = false →
      dbOpen listCF openS b = convertStatus listCF) ∧
    (∀ (listCF openS : RocksStatus) (b : Bool), listCF.ok = true → openS.ok = false →
      dbOpen listCF openS b = convertStatus openS) ∧
    (∀ (listCF openS : RocksStatus) (b : Bool),
      ((dbOpen listCF openS b).kind = StatusKind.NotFound ↔
        (listCF.code = 1 ∨ (listCF.code = 0 ∧ openS.code = 1)))) ∧
    (∀ (listCF openS : RocksStatus) (b : Bool),
      (dbOpen listCF openS b).kind ≠ StatusKind.Exists) := by
  refine ⟨?_, ?_, ?_, ?_, ?_, ?_⟩
  · intro s b
    by_cases h : s.ok = true
    · cases b <;> simp [dbInitialize, h, statusOK]
    · have hf : s.ok = false := by revert h; cases s.ok <;> simp
      simpa [dbInitialize, hf] using convertStatus_kind_ne_exists s
  · intro s b h
    simp [dbInitialize, h]
  · intro listCF openS b h
    simp [dbOpen, h]
  · intro listCF openS b h1 h2
    simp [dbOpen, h1, h2]
  · intro listCF openS b
    by_cases h1 : listCF.ok = true
    · have hc1 : listCF.code = 0 := by simpa [RocksStatus.ok] using h1
      by_cases h2 : openS.ok = true
      · have hc2 : openS.code = 0 := by simpa [RocksStatus.ok] using h2
        cases b <;> simp [dbOpen, h1, h2, statusOK, hc1, hc2]
      · have hf2 : openS.ok = false := by revert h2; cases openS.ok <;> simp
        simp [dbOpen, h1, hf2, convertStatus_kind_notFound_iff, hc1]
    · have hf1 : listCF.ok = false := by revert h1; cases listCF.ok <;> simp
      have hc1 : listCF.code ≠ 0 := by simpa [RocksStatus.ok] using hf1
      simp only [dbOpen, hf1, Bool.not_false, if_pos trivial, if_true,
        convertStatus_kind_notFound_iff]
      omega
  · intro listCF openS b
    by_cases h1 : listCF.ok = true
    · by_cases h2 : openS.ok = true
      · cases b <;> simp [dbOpen, h1, h2, statusOK]
      · have hf : openS.ok = false := by revert h2; cases openS.ok <;> simp
        simpa [dbOpen, h1, hf] using convertStatus_kind_ne_exists openS
    · have hf : listCF.ok = false := by revert h1; cases listCF.ok <;> simp
      simpa [dbOpen, hf] using convertStatus_kind_ne_exists listCF

/-- C3 witness: the amended mapping evaluated at a failed engine open during
Initialize, a failed enumeration (the engine I/O error a missing path
produces), a failed open after a successful enumeration, and an engine
not-found reported by the enumeration. -/
theorem initialize_open_error_mapping_witness :
    dbInitialize ⟨5, "cannot create"⟩ true = convertStatus ⟨5, "cannot create"⟩ ∧
    dbOpen ⟨5, "IO error: no such file or directory"⟩ ⟨0, ""⟩ true =
      convertStatus ⟨5, "IO error: no such file or directory"⟩ ∧
    dbOpen ⟨0, ""⟩ ⟨1, "not found"⟩ true = convertStatus ⟨1, "not found"⟩ ∧
    (dbOpen ⟨1, "no CURRENT file"⟩ ⟨0, ""⟩ true).kind = StatusKind.NotFound :=
  ⟨initialize_open_error_mapping.2.1 ⟨5, "cannot create"⟩ true rfl,
   initialize_open_error_mapping.2.2.1 ⟨5, "IO error: no such file or directory"⟩
     ⟨0, ""⟩ true rfl,
   initialize_open_error_mapping.2.2.2.1 ⟨0, ""⟩ ⟨1, "not found"⟩ true rfl rfl,
   (initialize_open_error_mapping.2.2.2.2.1 ⟨1, "no CURRENT file"⟩ ⟨0, ""⟩ true).2
     (Or.inl rfl)⟩

/-- helper: the find? test used by create_collection agrees with name
membership in the mapping -/
theorem coll_find_isSome_iff (l : List (String × CFOptions)) (name : String) :
    ((l.find? (fun p => p.1 == name)).isSome = true) ↔ name ∈ l.map Prod.fst := by
  simp [List.find?_isSome, List.mem_map]

/-- C9: create_collection fails with Exists and leaves the mapping unchanged
when the name is already present; otherwise, on engine success, it appends
exactly one namespace configured by the tuning policy for the mode (and on
engine failure returns the mapped error with the mapping unchanged); called
twice with the same fresh name, the second call returns Exists and exactly
one namespace of that name remains. -/
theorem create_collection_contract (db : DBState) (createCF createCF2 : RocksStatus)
    (name : String) :
    (name ∈ db.coll2handle.map Prod.fst →
      create_collection db createCF name =
        (⟨StatusKind.Exists, "column family already exists", name⟩, db)) ∧
    (name ∉ db.coll2handle.map Prod.fst → createCF.ok = true →
      create_collection db createCF name =
        (statusOK, ⟨db.mode, db.ram, db.coll2handle ++
          [(name, ApplyColumnFamilyOptions db.mode db.ram baseCFOptions)]⟩) ∧
      collCount (create_collection db createCF name).2 name = collCount db name + 1) ∧
    (name ∉ db.coll2handle.map Prod.fst → createCF.ok = false →
      create_collection db createCF name = (convertStatus createCF, db)) ∧
    (name ∉ db.coll2handle.map Prod.fst → createCF.ok = true → collCount db name = 0 →
      (create_collection (create_collection db createCF name).2 createCF2 name).1.kind
          = StatusKind.Exists ∧
      (create_collection (create_collection db createCF name).2 createCF2 name).2
          = (create_collection db createCF name).2 ∧
      collCount (create_collection (create_collection db createCF name).2 createCF2 name).2
          name = 1) := by
  have habsent : name ∉ db.coll2handle.map Prod.fst →
      (db.coll2handle.find? (fun p => p.1 == name)).isSome = false := by
    intro h
    rw [← Bool.not_eq_true]
    exact fun hs => h ((coll_find_isSome_iff db.coll2handle name).1 hs)
  refine ⟨?_, ?_, ?_, ?_⟩
  · intro h
    have hs := (coll_find_isSome_iff db.coll2handle name).2 h
    simp [create_collection, hs]
  · intro h hok
    have hn := habsent h
    refine ⟨by simp [create_collection, hn, hok], ?_⟩
    simp [create_collection, hn, hok, collCount, List.filter_append]
  · intro h hok
    have hn := habsent h
    simp [create_collection, hn, hok]
  · intro h hok hcount
    have hn := habsent h
    have hdb1 : (create_collection db createCF name).2 =
        ⟨db.mode, db.ram, db.coll2handle ++
          [(name, ApplyColumnFamilyOptions db.mode db.ram baseCFOptions)]⟩ := by
      simp [create_collection, hn, hok]
    have hmem : name ∈ ((db.coll2handle ++
        [(name, ApplyColumnFamilyOptions db.mode db.ram baseCFOptions)]).map Prod.fst) := by
      simp
    have hfind1 := (coll_find_isSome_iff _ name).2 hmem
    have hzero : (db.coll2handle.filter (fun p => p.1 == name)).length = 0 := hcount
    refine ⟨?_, ?_, ?_⟩
    · rw [hdb1]
      simp [create_collection, hfind1]
    · rw [hdb1]
      simp [create_collection, hfind1]
    · rw [hdb1]
      simp [create_collection, hfind1, collCount, List.filter_append, hzero]

/-- C9 witness: the contract evaluated on an empty database, creating the
same collection twice with engine success both times. -/
theorem create_collection_contract_witness :
    (create_collection ⟨OpenMode.NORMAL, 2 ^ 32, []⟩ rocksOK "calls").1 = statusOK ∧
    (create_collection (create_collection ⟨OpenMode.NORMAL, 2 ^ 32, []⟩ rocksOK "calls").2
        rocksOK "calls").1.kind = StatusKind.Exists ∧
    collCount (create_collection (create_collection ⟨OpenMode.NORMAL, 2 ^ 32, []⟩
        rocksOK "calls").2 rocksOK "calls").2 "calls" = 1 := by
  have h := create_collection_contract ⟨OpenMode.NORMAL, 2 ^ 32, []⟩ rocksOK rocksOK "calls"
  obtain ⟨-, h2, -, h4⟩ := h
  have hm : "calls" ∉ ([] : List (String × CFOptions)).map Prod.fst := by simp
  obtain ⟨he, -⟩ := h2 hm rfl
  obtain ⟨e1, -, e3⟩ := h4 hm rfl rfl
  exact ⟨by rw [he], e1, e3⟩

/-- helper: the wrapper keeps the cursor it was built from -/
theorem mkIterator_iter (it : RocksIter) : (mkIterator it).iter = it := by
  unfold mkIterator
  split <;> rfl

/-- helper: the wrapper captures the current key at construction when the
cursor is valid -/
theorem mkIterator_key_sync (it : RocksIter) (h : it.Valid = true) :
    (mkIterator it).key = it.currKey := by
  simp [mkIterator, h]

/-- helper: an invalid wrapper iterator stays invalid across a next step -/
theorem iterator_invalid_persists (i : Iterator) (h : i.valid = false) :
    (nextIter i).valid = false := by
  obtain ⟨⟨entries, pos, err⟩, k, v⟩ := i
  cases err with
  | none =>
    simp only [Iterator.valid, RocksIter.Valid, Option.isNone_none, Bool.true_and,
      decide_eq_false_iff_not] at h
    have h2 : RocksIter.Valid ⟨entries, pos + 1, none⟩ = false := by
      simp only [RocksIter.Valid, Option.isNone_none, Bool.true_and,
        decide_eq_false_iff_not]
      omega
    simp [nextIter, Iterator.next, RocksIter.status, rocksOK, RocksStatus.ok,
      RocksIter.Next, h2, Iterator.valid]
  | some e =>
    by_cases hok : e.code = 0 <;>
      simp [nextIter, Iterator.next, RocksIter.status, RocksStatus.ok, hok,
        RocksIter.Next, Iterator.valid, RocksIter.Valid]

/-- helper: an invalid wrapper iterator stays invalid across any number of
next steps -/
theorem iterator_invalid_persists_iter (i : Iterator) (h : i.valid = false) :
    ∀ n, (nextIter^[n] i).valid = false := by
  intro n
  induction n generalizing i with
  | zero => exact h
  | succ n ih =>
    rw [Function.iterate_succ_apply]
    exact ih _ (iterator_invalid_persists i h)

/-- C7: Iterator::next surfaces a pre-recorded cursor error (mapped)
immediately and without advancing; a successful advance onto a valid entry
returns OK with fresh copies of that entry's key and value captured; an
advance that leaves the cursor invalid returns OK with the iterator
invalid; and an invalid iterator stays invalid from then on, so every
subsequent valid() reports false. -/
theorem iterator_next_contract (i : Iterator) :
    (i.iter.status.ok = false → i.next = (convertStatus i.iter.status, i)) ∧
    (i.iter.status.ok = true → i.iter.Next.Valid = true →
      i.next = (statusOK, ⟨i.iter.Next, i.iter.Next.currKey, i.iter.Next.currValue⟩)) ∧
    (i.iter.status.ok = true → i.iter.Next.Valid = false →
      i.next.1 = statusOK ∧ i.next.2.valid = false) ∧
    (i.valid = false → ∀ n, (nextIter^[n] i).valid = false) := by
  obtain ⟨⟨entries, pos, err⟩, k, v⟩ := i
  refine ⟨?_, ?_, ?_, fun h => iterator_invalid_persists_iter _ h⟩
  · intro h
    simp [Iterator.next, h]
  · intro h1 h2
    have hs : RocksIter.status (RocksIter.Next ⟨entries, pos, err⟩) =
        RocksIter.status ⟨entries, pos, err⟩ := rfl
    simp [Iterator.next, h1, hs, h2]
  · intro h1 h2
    have hs : RocksIter.status (RocksIter.Next ⟨entries, pos, err⟩) =
        RocksIter.status ⟨entries, pos, err⟩ := rfl
    simp [Iterator.next, h1, hs, h2, Iterator.valid]

/-- C7 witness: the contract evaluated on a cursor with a recorded
corruption error, on a cursor advancing onto a valid entry, and on a cursor
advancing past the end of a two-entry range. -/
theorem iterator_next_contract_witness :
    (mkIterator ⟨[("a", "1")], 0, some ⟨2, "corr"⟩⟩).next =
      (convertStatus ⟨2, "corr"⟩, mkIterator ⟨[("a", "1")], 0, some ⟨2, "corr"⟩⟩) ∧
    (mkIterator ⟨[("a", "1"), ("b", "2")], 0, none⟩).next =
      (statusOK, ⟨⟨[("a", "1"), ("b", "2")], 1, none⟩, "b", "2"⟩) ∧
    (mkIterator ⟨[("a", "1"), ("b", "2")], 1, none⟩).next.1 = statusOK ∧
    (mkIterator ⟨[("a", "1"), ("b", "2")], 1, none⟩).next.2.valid = false ∧
    (nextIter^[3] (mkIterator ⟨[("a", "1"), ("b", "2")], 1, none⟩).next.2).valid = false := by
  have hA := (iterator_next_contract (mkIterator ⟨[("a", "1")], 0, some ⟨2, "corr"⟩⟩)).1 rfl
  have hB := (iterator_next_contract (mkIterator ⟨[("a", "1"), ("b", "2")], 0, none⟩)).2.1
    rfl rfl
  have hC := (iterator_next_contract (mkIterator ⟨[("a", "1"), ("b", "2")], 1, none⟩)).2.2.1
    rfl rfl
  have hD := (iterator_next_contract
    ((mkIterator ⟨[("a", "1"), ("b", "2")], 1, none⟩).next.2)).2.2.2 hC.2 3
  exact ⟨hA, hB, hC.1, hC.2, hD⟩

/-- C10: the stored key and value copies change only when an advance lands
on a valid entry: construction from an invalid cursor leaves them empty
strings, and a next() whose resulting cursor is invalid (a surfaced error
or an exhausted range) leaves both exactly as they were rather than
clearing them. -/
theorem iterator_key_value_frame (it : RocksIter) (i : Iterator) :
    (it.Valid = false → mkIterator it = ⟨it, "", ""⟩) ∧
    (i.next.2.valid = false → i.next.2.key = i.key ∧ i.next.2.value = i.value) := by
  refine ⟨fun h => by simp [mkIterator, h], ?_⟩
  intro h
  obtain ⟨⟨entries, pos, err⟩, k, v⟩ := i
  by_cases h1 : (RocksIter.status ⟨entries, pos, err⟩).ok
  · have hs : RocksIter.status (RocksIter.Next ⟨entries, pos, err⟩) =
        RocksIter.status ⟨entries, pos, err⟩ := rfl
    by_cases h2 : (RocksIter.Next ⟨entries, pos, err⟩).Valid
    · exfalso
      revert h
      simp [Iterator.next, h1, hs, h2, Iterator.valid]
    · have h2f : (RocksIter.Next ⟨entries, pos, err⟩).Valid = false := by
        revert h2; cases (RocksIter.Next ⟨entries, pos, err⟩).Valid <;> simp
      simp [Iterator.next, h1, hs, h2f]
  · have h1f : (RocksIter.status ⟨entries, pos, err⟩).ok = false := by
      revert h1; cases (RocksIter.status ⟨entries, pos, err⟩).ok <;> simp
    simp [Iterator.next, h1f]

/-- C10 witness: the frame conditions evaluated on an errored cursor at
construction and on an exhausting advance that keeps the copies of the last
valid entry. -/
theorem iterator_key_value_frame_witness :
    mkIterator ⟨[("a", "1")], 0, some ⟨5, "io"⟩⟩ =
      ⟨⟨[("a", "1")], 0, some ⟨5, "io"⟩⟩, "", ""⟩ ∧
    (mkIterator ⟨[("a", "1")], 0, none⟩).next.2.key = "a" ∧
    (mkIterator ⟨[("a", "1")], 0, none⟩).next.2.value = "1" := by
  refine ⟨(iterator_key_value_frame ⟨[("a", "1")], 0, some ⟨5, "io"⟩⟩
      (mkIterator ⟨[("a", "1")], 0, none⟩)).1 rfl, ?_, ?_⟩
  · exact ((iterator_key_value_frame ⟨[("a", "1")], 0, some ⟨5, "io"⟩⟩
      (mkIterator ⟨[("a", "1")], 0, none⟩)).2 rfl).1
  · exact ((iterator_key_value_frame ⟨[("a", "1")], 0, some ⟨5, "io"⟩⟩
      (mkIterator ⟨[("a", "1")], 0, none⟩)).2 rfl).2

/-- helper: the explicit form of a next step on an error-free cursor -/
theorem next_err_none (entries : List (String × String)) (pos : Nat) (k v : String) :
    Iterator.next ⟨⟨entries, pos, none⟩, k, v⟩ =
      (statusOK,
        if pos + 1 < entries.length then
          ⟨⟨entries, pos + 1, none⟩, (entries.getD (pos + 1) ("", "")).1,
            (entries.getD (pos + 1) ("", "")).2⟩
        else ⟨⟨entries, pos + 1, none⟩, k, v⟩) := by
  simp only [Iterator.next, RocksIter.status, Option.getD_none, rocksOK,
    RocksStatus.ok, RocksIter.Next, RocksIter.Valid, Option.isNone_none,
    Bool.true_and, beq_self_eq_true, Bool.not_true, Bool.false_eq_true,
    if_false, RocksIter.currKey, RocksIter.currValue]
  split
  · simp_all
  · rename_i h
    have h2 : ¬(pos + 1 < entries.length) := by simpa using h
    rw [if_neg h2]

/-- helper: a wrapper iterator that is invalid visits nothing -/
theorem visitedKeys_invalid (n : Nat) (i : Iterator) (h : i.valid = false) :
    visitedKeys n i = [] := by
  cases n with
  | zero => rfl
  | succ n => simp [visitedKeys, h]

/-- helper: on an error-free cursor, iterating from position pos visits
exactly the keys of the entries from pos on, provided the stored key is in
sync with the cursor and the fuel covers the remaining entries -/
theorem visitedKeys_drop (n : Nat) :
    ∀ (i : Iterator), i.iter.err = none →
      (i.iter.Valid = true → i.key = i.iter.currKey) →
      i.iter.entries.length - i.iter.pos ≤ n →
      visitedKeys n i = (i.iter.entries.map Prod.fst).drop i.iter.pos := by
  induction n with
  | zero =>
    rintro ⟨⟨entries, pos, err⟩, k, v⟩ herr hkey hfuel
    simp only at herr hfuel ⊢
    subst herr
    rw [visitedKeys, eq_comm, List.drop_eq_nil_iff]
    simp only [List.length_map]
    omega
  | succ n ih =>
    rintro ⟨⟨entries, pos, err⟩, k, v⟩ herr hkey hfuel
    simp only at herr hkey hfuel ⊢
    subst herr
    have hfuel2 : entries.length - pos ≤ n + 1 := hfuel
    by_cases hpos : pos < entries.length
    · have hv : RocksIter.Valid ⟨entries, pos, none⟩ = true := by
        simp [RocksIter.Valid, hpos]
      have hval : Iterator.valid ⟨⟨entries, pos, none⟩, k, v⟩ = true := hv
      have hk : k = (entries.getD pos ("", "")).1 := hkey hv
      rw [visitedKeys, if_pos hval, next_err_none]
      simp only [if_pos rfl]
      have hrec : visitedKeys n (Iterator.next ⟨⟨entries, pos, none⟩, k, v⟩).2 =
          (entries.map Prod.fst).drop (pos + 1) := by
        rw [next_err_none]
        by_cases h2 : pos + 1 < entries.length
        · rw [if_pos h2]
          exact ih _ rfl (fun _ => rfl)
            (show entries.length - (pos + 1) ≤ n by omega)
        · rw [if_neg h2]
          have := ih ⟨⟨entries, pos + 1, none⟩, k, v⟩ rfl
            (fun hvv => by
              exfalso
              simp only [RocksIter.Valid, Option.isNone_none, Bool.true_and,
                decide_eq_true_eq] at hvv
              omega)
            (show entries.length - (pos + 1) ≤ n by omega)
          exact this
      rw [show (Iterator.next ⟨⟨entries, pos, none⟩, k, v⟩).2 =
            (if pos + 1 < entries.length then
              ⟨⟨entries, pos + 1, none⟩, (entries.getD (pos + 1) ("", "")).1,
                (entries.getD (pos + 1) ("", "")).2⟩
            else ⟨⟨entries, pos + 1, none⟩, k, v⟩) from by rw [next_err_none]] at hrec
      rw [hrec]
      have hposm : pos < (entries.map Prod.fst).length := by
        simpa using hpos
      rw [List.drop_eq_getElem_cons hposm]
      congr 1
      rw [List.getElem_map]
      rw [hk, List.getD_eq_getElem entries ("", "") hpos]
    · have hval : Iterator.valid ⟨⟨entries, pos, none⟩, k, v⟩ = false := by
        simp only [Iterator.valid, RocksIter.Valid, Option.isNone_none,
          Bool.true_and, decide_eq_false_iff_not]
        omega
      rw [visitedKeys, if_neg (by simp [hval]), eq_comm, List.drop_eq_nil_iff]
      simp only [List.length_map]
      omega

/-- helper: dropping up to the first key at or past the target in a sorted
entry list leaves exactly the keys at or past the target -/
theorem drop_findIdx_filter (key : String) :
    ∀ (entries : List (String × String)),
      List.Pairwise (fun a b => a.1 < b.1) entries →
      (entries.map Prod.fst).drop (entries.findIdx (fun e => decide (key ≤ e.1))) =
        (entries.map Prod.fst).filter (fun s => decide (key ≤ s)) := by
  intro entries
  induction entries with
  | nil => simp
  | cons e t ih =>
    intro hp
    obtain ⟨hhead, htail⟩ := List.pairwise_cons.1 hp
    by_cases he : key ≤ e.1
    · have hpe : decide (key ≤ e.1) = true := decide_eq_true he
      simp only [List.findIdx_cons, hpe, cond_true, List.drop_zero]
      rw [eq_comm, List.filter_eq_self]
      intro a ha
      simp only [List.map_cons, List.mem_cons, List.mem_map] at ha
      rcases ha with ha | ⟨b, hb, hba⟩
      · subst ha; simpa using he
      · subst hba
        have : e.1 < b.1 := hhead b hb
        simpa using le_trans he (le_of_lt this)
    · have hpe : decide (key ≤ e.1) = false := decide_eq_false he
      simp only [List.findIdx_cons, hpe, cond_false, List.map_cons,
        List.drop_succ_cons, List.filter_cons, Bool.false_eq_true, if_false]
      exact ih htail

/-- helper: in a sorted entry list containing the target key, the first
position at or past the target is in range and holds exactly the target -/
theorem getD_findIdx_mem (key : String) :
    ∀ (entries : List (String × String)),
      List.Pairwise (fun a b => a.1 < b.1) entries →
      key ∈ entries.map Prod.fst →
      entries.findIdx (fun e => decide (key ≤ e.1)) < entries.length ∧
      (entries.getD (entries.findIdx (fun e => decide (key ≤ e.1))) ("", "")).1 = key := by
  intro entries
  induction entries with
  | nil => simp
  | cons e t ih =>
    intro hp hmem
    obtain ⟨hhead, htail⟩ := List.pairwise_cons.1 hp
    have hmem2 : key = e.1 ∨ ∃ b ∈ t, b.1 = key := by simpa using hmem
    by_cases he : key ≤ e.1
    · have hek : e.1 = key := by
        rcases hmem2 with h | ⟨b, hb, hba⟩
        · exact h.symm
        · have hb1 : e.1 < b.1 := hhead b hb
          rw [hba] at hb1
          exact absurd (lt_of_le_of_lt he hb1) (lt_irrefl key)
      have hpe : decide (key ≤ e.1) = true := decide_eq_true he
      simp only [List.findIdx_cons, hpe, cond_true, List.length_cons,
        List.getD_cons_zero]
      exact ⟨by omega, hek⟩
    · have hlt : e.1 < key := not_le.1 he
      have hkey_t : key ∈ t.map Prod.fst := by
        rcases hmem2 with h | ⟨b, hb, hba⟩
        · rw [h] at hlt
          exact absurd hlt (lt_irrefl _)
        · exact List.mem_map.2 ⟨b, hb, hba⟩
      obtain ⟨ih1, ih2⟩ := ih htail hkey_t
      have hpe : decide (key ≤ e.1) = false := decide_eq_false he
      simp only [List.findIdx_cons, hpe, cond_false, List.length_cons,
        List.getD_cons_succ]
      exact ⟨by omega, ih2⟩

/-- helper: the keys visited from an error-free cursor at a given position,
with fuel covering the whole collection, are exactly the entry keys from
that position on -/
theorem visitedKeys_mk (entries : List (String × String)) (pos : Nat) :
    visitedKeys entries.length (mkIterator ⟨entries, pos, none⟩) =
      (entries.map Prod.fst).drop pos := by
  have hv := visitedKeys_drop entries.length (mkIterator ⟨entries, pos, none⟩)
  rw [mkIterator_iter] at hv
  exact hv rfl (mkIterator_key_sync _) (Nat.sub_le _ _)

/-- C8: Reader::iterator returns the generic construction failure when the
engine cannot create a cursor, surfaces a pre-recorded cursor error
(mapped) without producing an Iterator, and otherwise yields an Iterator
positioned at the collection's first key when the start key is empty and at
the first key at or past the start key otherwise (exactly at the start key
when it is present); from that position the iteration visits exactly the
keys at or past it, strictly forward in ascending key order. -/
theorem reader_iterator_contract (rit : RocksIter) (startKey : String) :
    (readerIterator none startKey =
      Except.error ⟨StatusKind.Failure, "rocksdb::DB::NewIterator()", ""⟩) ∧
    (∀ e, rit.err = some e → e.ok = false →
      readerIterator (some rit) startKey = Except.error (convertStatus e)) ∧
    (rit.err = none →
      (startKey = "" →
        (readerIterator (some rit) startKey).map (fun i => i.iter.pos) =
          Except.ok 0) ∧
      (List.Pairwise (fun a b => a.1 < b.1) rit.entries →
        (startKey = "" →
          (readerIterator (some rit) startKey).map (visitedKeys rit.entries.length) =
            Except.ok (keysOf rit)) ∧
        (startKey ≠ "" →
          (readerIterator (some rit) startKey).map (visitedKeys rit.entries.length) =
            Except.ok ((keysOf rit).filter (fun s => decide (startKey ≤ s)))) ∧
        (startKey ≠ "" → startKey ∈ keysOf rit →
          (readerIterator (some rit) startKey).map Iterator.key =
            Except.ok startKey))) ∧
    (List.Pairwise (fun a b => a.1 < b.1) rit.entries →
      ∀ i, readerIterator (some rit) startKey = Except.ok i →
        List.Pairwise (fun a b : String => a < b)
          (visitedKeys rit.entries.length i)) := by
  obtain ⟨entries, pos, err⟩ := rit
  refine ⟨rfl, ?_, ?_, ?_⟩
  · rintro e rfl hok
    cases hE : startKey.isEmpty <;>
      simp [readerIterator, hE, RocksIter.SeekToFirst, RocksIter.Seek,
        RocksIter.status, hok]
  · rintro rfl
    have hredE : readerIterator (some ⟨entries, pos, none⟩) "" =
        Except.ok (mkIterator ⟨entries, 0, none⟩) := by
      simp [readerIterator, show String.isEmpty "" = true from rfl,
        RocksIter.SeekToFirst, RocksIter.status, rocksOK, RocksStatus.ok]
    constructor
    · rintro rfl
      rw [hredE]
      simp [Except.map, mkIterator_iter]
    · intro hp
      have hE : startKey.isEmpty = false → readerIterator (some ⟨entries, pos, none⟩)
          startKey = Except.ok (mkIterator
            ⟨entries, entries.findIdx (fun e => decide (startKey ≤ e.1)), none⟩) := by
        intro hEf
        simp [readerIterator, hEf, RocksIter.Seek, RocksIter.status, rocksOK,
          RocksStatus.ok]
      refine ⟨?_, ?_, ?_⟩
      · rintro rfl
        rw [hredE]
        simp only [Except.map]
        rw [visitedKeys_mk]
        simp [keysOf]
      · intro hne
        have hEf : startKey.isEmpty = false := by
          cases h : startKey.isEmpty
          · rfl
          · exact absurd ((String.isEmpty_iff startKey).1 h) hne
        rw [hE hEf]
        simp only [Except.map]
        rw [visitedKeys_mk, drop_findIdx_filter startKey entries hp]
        rfl
      · intro hne hmem
        have hEf : startKey.isEmpty = false := by
          cases h : startKey.isEmpty
          · rfl
          · exact absurd ((String.isEmpty_iff startKey).1 h) hne
        obtain ⟨hlt, hgetD⟩ := getD_findIdx_mem startKey entries hp
          (by simpa [keysOf] using hmem)
        have hvalid : RocksIter.Valid
            ⟨entries, entries.findIdx (fun e => decide (startKey ≤ e.1)), none⟩
              = true := by
          simp only [RocksIter.Valid, Option.isNone_none, Bool.true_and]
          exact decide_eq_true hlt
        rw [hE hEf]
        simp only [Except.map]
        rw [mkIterator_key_sync _ hvalid]
        simpa [RocksIter.currKey] using hgetD
  · intro hp i hoki
    cases err with
    | none =>
      have hred : readerIterator (some ⟨entries, pos, none⟩) startKey =
          Except.ok (mkIterator ⟨entries,
            if startKey.isEmpty then 0
            else entries.findIdx (fun e => decide (startKey ≤ e.1)), none⟩) := by
        cases hE : startKey.isEmpty <;>
          simp [readerIterator, hE, RocksIter.SeekToFirst, RocksIter.Seek,
            RocksIter.status, rocksOK, RocksStatus.ok]
      rw [hred] at hoki
      simp only [Except.ok.injEq] at hoki
      subst hoki
      have hmap : List.Pairwise (fun a b : String => a < b)
          (entries.map Prod.fst) := List.pairwise_map.2 hp
      rw [show (⟨entries, pos, none⟩ : RocksIter).entries = entries from rfl,
        visitedKeys_mk]
      exact List.Pairwise.sublist (List.drop_sublist _ _) hmap
    | some e =>
      by_cases hok : e.ok = true
      · have hred : readerIterator (some ⟨entries, pos, some e⟩) startKey =
            Except.ok (mkIterator ⟨entries,
              if startKey.isEmpty then 0
              else entries.findIdx (fun e => decide (startKey ≤ e.1)), some e⟩) := by
          cases hE : startKey.isEmpty <;>
            simp [readerIterator, hE, RocksIter.SeekToFirst, RocksIter.Seek,
              RocksIter.status, hok]
        rw [hred] at hoki
        simp only [Except.ok.injEq] at hoki
        subst hoki
        rw [visitedKeys_invalid]
        · exact List.Pairwise.nil
        · show RocksIter.Valid _ = false
          rw [mkIterator_iter]
          simp [RocksIter.Valid]
      · have hokf : e.ok = false := by
          revert hok; cases e.ok <;> simp
        cases hE : startKey.isEmpty <;>
          simp [readerIterator, hE, RocksIter.SeekToFirst, RocksIter.Seek,
            RocksIter.status, hokf] at hoki

/-- C8 witness: the contract evaluated on the spec example collection: keys
a, b, c; the empty start key visits a, b, c, start key b visits b, c and is
positioned exactly at b; a failed engine construction and a cursor error
are surfaced as errors. -/
theorem reader_iterator_contract_witness :
    (readerIterator none "b" =
      Except.error ⟨StatusKind.Failure, "rocksdb::DB::NewIterator()", ""⟩) ∧
    (readerIterator (some ⟨[("a", "1"), ("b", "2"), ("c", "3")], 0, some ⟨5, "io"⟩⟩) "" =
      Except.error (convertStatus ⟨5, "io"⟩)) ∧
    ((readerIterator (some ⟨[("a", "1"), ("b", "2"), ("c", "3")], 0, none⟩) "").map
      (visitedKeys 3) = Except.ok ["a", "b", "c"]) ∧
    ((readerIterator (some ⟨[("a", "1"), ("b", "2"), ("c", "3")], 0, none⟩) "b").map
      (visitedKeys 3) = Except.ok ["b", "c"]) ∧
    ((readerIterator (some ⟨[("a", "1"), ("b", "2"), ("c", "3")], 0, none⟩) "b").map
      Iterator.key = Except.ok "b") := by
  have habc := reader_iterator_contract ⟨[("a", "1"), ("b", "2"), ("c", "3")], 0, none⟩ "b"
  have habc0 := reader_iterator_contract ⟨[("a", "1"), ("b", "2"), ("c", "3")], 0, none⟩ ""
  have herr := reader_iterator_contract
    ⟨[("a", "1"), ("b", "2"), ("c", "3")], 0, some ⟨5, "io"⟩⟩ ""
  have hsorted : List.Pairwise (fun a b : String × String => a.1 < b.1)
      [("a", "1"), ("b", "2"), ("c", "3")] := by
    simp [List.pairwise_cons, String.lt_iff_toList_lt]
    decide
  have hba : ¬ ("b" : String) ≤ "a" := by
    simp [String.le_iff_toList_le]
    decide
  have hbb : ("b" : String) ≤ "b" := le_refl _
  have hbc : ("b" : String) ≤ "c" := by
    simp [String.le_iff_toList_le]
    decide
  have hne : ("b" : String) ≠ "" := by decide
  have hmem : ("b" : String) ∈ keysOf ⟨[("a", "1"), ("b", "2"), ("c", "3")], 0, none⟩ := by
    simp [keysOf]
  refine ⟨habc.1, herr.2.1 ⟨5, "io"⟩ rfl rfl, ?_, ?_, ?_⟩
  · have h := ((habc0.2.2.1 rfl).2 hsorted).1 rfl
    simpa [keysOf] using h
  · have h := ((habc.2.2.1 rfl).2 hsorted).2.1 hne
    have hfilter : List.filter (fun s => decide (("b" : String) ≤ s)) ["a", "b", "c"] =
        ["b", "c"] := by
      simp [List.filter_cons, decide_eq_false hba, decide_eq_true hbb,
        decide_eq_true hbc]
      decide
    simpa [keysOf, hfilter] using h
  · exact ((habc.2.2.1 rfl).2 hsorted).2.2 hne hmem

end Theorems

end GLnexus
